import Mathlib

/-!
Verification of the aws-opensearch-connector repository against its
natural-language specification.  The Python sources are shallowly embedded:
JSON-like runtime values become the inductive type `PyVal`, Python dicts
become insertion-ordered association lists, fallible functions return
`Except`, and machine arithmetic (Python ints are unbounded; the only
floating computation, epoch conversion, is modelled by exact rational /
integer arithmetic with truncation toward zero, faithful to the code on the
date ranges used by the theorems below).
-/

namespace OSConn

/-- Model of a Python runtime value as it appears in the JSON-like
OpenSearch response documents handled by `latest.py`: integers, strings,
None, lists and dicts.  A dict is an insertion-ordered association list,
as in Python. -/
inductive PyVal : Type where
  | int : Int → PyVal
  | str : String → PyVal
  | none : PyVal
  | list : List PyVal → PyVal
  | dict : List (String × PyVal) → PyVal

mutual

/-- Model of Python `repr` on `PyVal` (which is what `str` produces on
lists and dicts): `repr([1, 2]) = "[1, 2]"`, strings are quoted with
single quotes (escaping of quotes inside the string is not modelled; no
claim exercises it). -/
def pyRepr : PyVal → String
  | PyVal.int n => toString n
  | PyVal.str s => "'" ++ s ++ "'"
  | PyVal.none => "None"
  | PyVal.list l => "[" ++ pyReprList l ++ "]"
  | PyVal.dict d => "\x7b" ++ pyReprDict d ++ "\x7d"

/-- Comma-separated `repr` of the elements of a Python list. -/
def pyReprList : List PyVal → String
  | [] => ""
  | [v] => pyRepr v
  | v :: rest => pyRepr v ++ ", " ++ pyReprList rest

/-- Comma-separated `repr` of the key/value pairs of a Python dict. -/
def pyReprDict : List (String × PyVal) → String
  | [] => ""
  | [(k, v)] => "'" ++ k ++ "': " ++ pyRepr v
  | (k, v) :: rest => "'" ++ k ++ "': " ++ pyRepr v ++ ", " ++ pyReprDict rest

end

/-- Model of Python `str()`: identity on strings, `repr` otherwise. -/
def pyStr : PyVal → String
  | PyVal.str s => s
  | v => pyRepr v

/-- Insert or update a key in a Python dict (association list): an existing
key keeps its position and gets the new value, a new key is appended.
This is the effect of one `d[k] = v` step. -/
def upsert (k : String) (v : PyVal) : List (String × PyVal) → List (String × PyVal)
  | [] => [(k, v)]
  | (k2, v2) :: rest => if k2 = k then (k2, v) :: rest else (k2, v2) :: upsert k v rest

/-- Model of Python `dict(items)`: builds a dict left to right, later
duplicate keys overriding earlier values while keeping the first
position. -/
def dictOfItems (items : List (String × PyVal)) : List (String × PyVal) :=
  items.foldl (fun acc kv => upsert kv.1 kv.2 acc) []

mutual

/-- Item list built by the loop of `flatten_dict` in `latest.py`
(separator hard-coded to the default `"."`): each entry contributes the
items of its value under the extended key, appended in order. -/
def flatItems : List (String × PyVal) → String → List (String × PyVal)
  | [], _ => []
  | (k, v) :: rest, parent_key =>
    flatVal v (if parent_key = "" then k else parent_key ++ "." ++ k)
      ++ flatItems rest parent_key

/-- Items contributed by one value under its new key, mirroring the
if/elif/else of the loop body: nested dicts are flattened recursively
(each inner call returns `dict(items)`, modelled by `dictOfItems`),
lists are serialized via `str`, other values are kept as they are. -/
def flatVal : PyVal → String → List (String × PyVal)
  | PyVal.dict d2, new_key => dictOfItems (flatItems d2 new_key)
  | PyVal.list l, new_key => [(new_key, PyVal.str (pyRepr (PyVal.list l)))]
  | x, new_key => [(new_key, x)]

end

/-- Model of `flatten_dict(d, parent_key)` from `latest.py`: the collected
items wrapped in a final `dict(items)`. -/
def flatten_dict (d : List (String × PyVal)) (parent_key : String) : List (String × PyVal) :=
  dictOfItems (flatItems d parent_key)

/-- Numeric value of a list of decimal digit characters, most significant
first (what `int` does to the digit groups captured by `strptime`). -/
def natOfDigits (l : List Char) : Nat :=
  l.foldl (fun a c => a * 10 + (c.toNat - 48)) 0

/-- Split a character list into its maximal leading run of decimal digits
and the rest. -/
def spanDigits (l : List Char) : List Char × List Char :=
  (l.takeWhile Char.isDigit, l.dropWhile Char.isDigit)

/-- Gregorian leap-year test, as in Python's `calendar`/`datetime`. -/
def isLeap (y : Nat) : Bool :=
  decide (y % 4 = 0 ∧ (y % 100 ≠ 0 ∨ y % 400 = 0))

/-- Number of days in month `m` of year `y` (months are 1-based). -/
def daysInMonth (y m : Nat) : Nat :=
  if m = 2 then (if isLeap y then 29 else 28)
  else if m = 4 ∨ m = 6 ∨ m = 9 ∨ m = 11 then 30
  else 31

/-- Days in the full months preceding month `m` of year `y` (the
`_DAYS_BEFORE_MONTH` table of CPython's `datetime`, with the leap-day
correction). -/
def daysBeforeMonth (y m : Nat) : Nat :=
  (match m with
   | 1 => 0 | 2 => 31 | 3 => 59 | 4 => 90 | 5 => 120 | 6 => 151
   | 7 => 181 | 8 => 212 | 9 => 243 | 10 => 273 | 11 => 304 | _ => 334)
  + (if 3 ≤ m ∧ isLeap y then 1 else 0)

/-- Signed day count from 1970-01-01 to the civil date `y-m-d` (with
`y ≥ 1`, `1 ≤ m ≤ 12`, `1 ≤ d`, as `parseYMD` guarantees).  This is
CPython's `datetime` ordinal arithmetic (`_ymd2ord`: days in preceding
years plus leap days, days in preceding months, day of month) rebased at
the epoch, whose proleptic-Gregorian ordinal is 719163; it is the date
arithmetic performed by `datetime.strptime` plus `datetime.timestamp` in
`latest.py`, divided by 86400 seconds. -/
def epochDays (y m d : Nat) : Int :=
  ((365 * (y - 1) + (y - 1) / 4 - (y - 1) / 100 + (y - 1) / 400
      + daysBeforeMonth y m + (d - 1) : Nat) : Int) - 719162

/-- Model of the day field of CPython `strptime`, whose `%d` pattern is
`3[01]|[12]\d|0[1-9]|[1-9]| [1-9]`: the remaining input must be either a
run of one or two digits (its value, checked by the caller to be between
1 and the month length and hence at most 31, makes it exactly the set the
alternation accepts in front of the end of input) or a single space
followed by one digit. -/
def parseDayField : List Char → Option Nat
  | ' ' :: r =>
    (match spanDigits r with
     | (ds, []) => if ds.length = 1 then some (natOfDigits ds) else Option.none
     | _ => Option.none)
  | l =>
    (match spanDigits l with
     | (ds, []) =>
       if 1 ≤ ds.length ∧ ds.length ≤ 2 then some (natOfDigits ds) else Option.none
     | _ => Option.none)

/-- Model of `datetime.strptime(date_str, "%Y-%m-%d")` in `latest.py`,
following CPython `_strptime`: `%Y` is `\d\d\d\d` (exactly four
digits), `%m` is `1[0-2]|0[1-9]|[1-9]` (a one- or two-digit run valued
1..12), `%d` is handled by `parseDayField`, the dashes are literal, the
whole string must be consumed, and `datetime` then requires year at
least 1 and a day valid for the month (raising `ValueError` otherwise).
Because the field separators are non-digit characters, the backtracking
regex accepts a digit field exactly when the maximal digit run there has
an accepted length — a leftover digit would have to match the literal
dash or the end of input — which is how the match is modelled here. -/
def parseYMD (s : String) : Option (Nat × Nat × Nat) :=
  match spanDigits s.data with
  | (ys, '-' :: r2) =>
    (match spanDigits r2 with
     | (ms, '-' :: r4) =>
       (match parseDayField r4 with
        | some d =>
          if ys.length = 4 ∧ 1 ≤ ms.length ∧ ms.length ≤ 2 then
            if 1 ≤ natOfDigits ys ∧ 1 ≤ natOfDigits ms ∧ natOfDigits ms ≤ 12
                ∧ 1 ≤ d ∧ d ≤ daysInMonth (natOfDigits ys) (natOfDigits ms) then
              some (natOfDigits ys, natOfDigits ms, d)
            else none
          else none
        | Option.none => none)
     | _ => none)
  | _ => none

/-- Model of FastAPI's `HTTPException` as raised by `latest.py`. -/
structure HTTPException where
  status_code : Nat
  detail : String
deriving DecidableEq

/-- Model of `convert_date_to_epoch_start` from `latest.py`: parse
`%Y-%m-%d`, anchor to 00:00:00.000 UTC, return epoch milliseconds; on a
parse failure raise HTTP 400 naming the input.  The float product
`timestamp() * 1000` is exact for every year `strptime` can produce
(magnitudes below 2^53), so integer arithmetic models it exactly. -/
def convert_date_to_epoch_start (date_str : String) : Except HTTPException Int :=
  match parseYMD date_str with
  | some (y, m, d) => Except.ok (epochDays y m d * 86400000)
  | Option.none =>
      Except.error ⟨400, "Invalid date format: " ++ date_str ++ ". Expected YYYY-MM-DD"⟩

/-- Model of `convert_date_to_epoch_end` from `latest.py`: parse
`%Y-%m-%d`, anchor to 23:59:59.999999 UTC, multiply the (exact-rational
model of the) float timestamp by 1000 and truncate toward zero with
`int()` — `Int.tdiv` is Lean's truncating division.  The rational value
`sec + 0.999999` times 1000 is `(sec * 1000000 + 999999) / 1000`; the
double-precision computation in the source agrees with this exact value
for the 1970-2200 date range the theorems below quantify over. -/
def convert_date_to_epoch_end (date_str : String) : Except HTTPException Int :=
  match parseYMD date_str with
  | some (y, m, d) =>
      let sec : Int := epochDays y m d * 86400 + 86399
      Except.ok (Int.tdiv (sec * 1000000 + 999999) 1000)
  | Option.none =>
      Except.error ⟨400, "Invalid date format: " ++ date_str ++ ". Expected YYYY-MM-DD"⟩

/-- Model of the pydantic `SearchParams` record of `latest.py`. -/
structure SearchParams where
  region : String
  business_area : String
  data_source : String
  trade_date_from : String
  trade_date_to : String
  page : Int
  page_size : Int

/-- One entry of the boolean `must` array built by
`build_opensearch_query`: a `match` clause on a field or a `range` clause
with inclusive bounds. -/
inductive Clause where
  | matchClause (field : String) (value : String)
  | rangeClause (field : String) (gte lte : Int)
deriving DecidableEq

/-- The query document returned by `build_opensearch_query`: the bool
`must` clause list, the pagination offset `"from"` and the page `"size"`. -/
structure OSQuery where
  must : List Clause
  from_ : Int
  size : Int
deriving DecidableEq

/-- Model of `build_opensearch_query` from `latest.py`: match clauses for
region, business area and data source are always appended, then the
(required) trade-date range clause with converted bounds, and pagination
is `from = (page - 1) * page_size`, `size = page_size`.  A date conversion
failure propagates as the `HTTPException` it raises. -/
def build_opensearch_query (params : SearchParams) : Except HTTPException OSQuery :=
  match convert_date_to_epoch_start params.trade_date_from with
  | Except.error e => Except.error e
  | Except.ok lo =>
    match convert_date_to_epoch_end params.trade_date_to with
    | Except.error e => Except.error e
    | Except.ok hi =>
      Except.ok
        { must := [Clause.matchClause "region" params.region,
                   Clause.matchClause "business_area" params.business_area,
                   Clause.matchClause "data_source" params.data_source,
                   Clause.rangeClause "tradeDate" lo hi],
          from_ := (params.page - 1) * params.page_size,
          size := params.page_size }

/-- Strip leading and trailing whitespace, as Python `float(str)` does
before parsing. -/
def stripWS (l : List Char) : List Char :=
  ((l.dropWhile Char.isWhitespace).reverse.dropWhile Char.isWhitespace).reverse

/-- Consume an optional leading sign; `true` means negative. -/
def parseSign : List Char → Bool × List Char
  | '-' :: r => (true, r)
  | '+' :: r => (false, r)
  | l => (false, l)

/-- Parse the mantissa of a Python float literal: digits with an optional
decimal point, at least one digit overall.  Returns the exact rational
value and the unconsumed rest. -/
def parseMantissa (l : List Char) : Option (ℚ × List Char) :=
  let p1 := spanDigits l
  match p1.2 with
  | '.' :: r =>
    let p2 := spanDigits r
    if p1.1.length = 0 ∧ p2.1.length = 0 then Option.none
    else some ((natOfDigits p1.1 : ℚ) + (natOfDigits p2.1 : ℚ) / ((10 : ℚ) ^ p2.1.length), p2.2)
  | _ =>
    if p1.1.length = 0 then Option.none
    else some ((natOfDigits p1.1 : ℚ), p1.2)

/-- Parse the digits of an exponent after its optional sign. -/
def parseExpDigits (r : List Char) : Option ℚ :=
  let s := parseSign r
  let p := spanDigits s.2
  if p.1.length = 0 ∨ p.2 ≠ [] then Option.none
  else some (if s.1 then 1 / ((10 : ℚ) ^ natOfDigits p.1) else ((10 : ℚ) ^ natOfDigits p.1))

/-- Parse an optional exponent part closing the literal; the whole input
must be consumed. -/
def parseExpPart : List Char → Option ℚ
  | [] => some 1
  | 'e' :: r => parseExpDigits r
  | 'E' :: r => parseExpDigits r
  | _ => Option.none

/-- Tail of the underscore-placement check, carrying the previous
character: every underscore must sit between two ASCII digits. -/
def underscoresTail : Char → List Char → Bool
  | _, [] => true
  | _, ['_'] => false
  | prev, '_' :: d :: rest => prev.isDigit && d.isDigit && underscoresTail d rest
  | _, c :: rest => underscoresTail c rest

/-- Underscore placement check of Python numeric literals (PEP 515, as
CPython's float parser implements it): every underscore in the trimmed
string must be immediately preceded and followed by an ASCII digit.
CPython validates this first and then strips the underscores before
parsing. -/
def underscoresOK : List Char → Bool
  | [] => true
  | '_' :: _ => false
  | c :: rest => underscoresTail c rest

/-- Result of Python `float()`: a finite value (modelled exactly as a
rational), a signed infinity, or NaN. -/
inductive FloatVal where
  | finite (q : ℚ)
  | inf (neg : Bool)
  | nan

/-- Model of Python `float(s)` on a character list: optional surrounding
whitespace, underscore validation and stripping, optional sign, then
either a special word (`inf`, `infinity`, `nan`, case-insensitive) or a
decimal mantissa with an optional exponent, modelled as an exact
rational.  `Option.none` models the `ValueError` raised for unparsable
strings. -/
def parseFloatChars (l : List Char) : Option FloatVal :=
  let t := stripWS l
  if underscoresOK t then
    let s := parseSign (t.filter (fun c => c != '_'))
    let low := s.2.map Char.toLower
    if low = ['i', 'n', 'f'] ∨ low = ['i', 'n', 'f', 'i', 'n', 'i', 't', 'y'] then
      some (FloatVal.inf s.1)
    else if low = ['n', 'a', 'n'] then
      some FloatVal.nan
    else
      match parseMantissa s.2 with
      | Option.none => Option.none
      | some mr =>
        (match parseExpPart mr.2 with
         | Option.none => Option.none
         | some e => some (FloatVal.finite ((if s.1 then -mr.1 else mr.1) * e)))
  else Option.none

/-- Model of Python `float(v)` on a `PyVal`: numbers convert, strings are
parsed, everything else raises `TypeError` (modelled as `Option.none`,
which `format_epoch_to_date` catches together with `ValueError`). -/
def pyFloat : PyVal → Option FloatVal
  | PyVal.int n => some (FloatVal.finite (n : ℚ))
  | PyVal.str s => parseFloatChars s.data
  | _ => Option.none

/-- Civil date (year, month, day) of the day `z` days after 1970-01-01
(standard civil-from-days algorithm; this is the calendar arithmetic of
`datetime.utcfromtimestamp`). -/
def civilFromDays (z : Int) : Int × Nat × Nat :=
  let z2 := z + 719468
  let era : Int := Int.fdiv z2 146097
  let doe : Nat := (z2 - era * 146097).toNat
  let yoe := (doe - doe / 1460 + doe / 36524 - doe / 146096) / 365
  let doy := doe - (365 * yoe + yoe / 4 - yoe / 100)
  let mp := (5 * doy + 2) / 153
  let d := doy - (153 * mp + 2) / 5 + 1
  let m := if mp < 10 then mp + 3 else mp - 9
  let y : Int := (yoe : Int) + era * 400
  (if m ≤ 2 then y + 1 else y, m, d)

/-- Upper-case English month abbreviations, i.e. `strftime("%b").upper()`
in the C locale. -/
def monthAbbrUpper (m : Nat) : String :=
  List.getD ["JAN", "FEB", "MAR", "APR", "MAY", "JUN", "JUL", "AUG", "SEP", "OCT", "NOV", "DEC"]
    (m - 1) ""

/-- Zero-padded two-digit rendering of a day number (`strftime("%d")`). -/
def pad2 (n : Nat) : String :=
  if n < 10 then "0" ++ toString n else toString n

/-- Model of `datetime.utcfromtimestamp(ts).strftime("%d-%b-%Y UTC").upper()`
for an exact-rational timestamp `ts` in seconds: the calendar date of day
`floor(ts / 86400)` after the epoch, rendered as `DD-MON-YYYY UTC`.
This helper is only reached by `formatFinite` for timestamps inside
`datetime`'s representable range, where `utcfromtimestamp` succeeds.
(`utcfromtimestamp`'s rounding of the timestamp to whole microseconds is
not modelled; it can shift the date only within half a microsecond of
midnight, and no theorem below evaluates there.) -/
def renderUtcDate (ts : ℚ) : String :=
  let days : Int := ⌊ts / 86400⌋
  let c := civilFromDays days
  pad2 c.2.2 ++ "-" ++ monthAbbrUpper c.2.1 ++ "-" ++ toString c.1 ++ " UTC"

/-- Lower bound (in seconds) of `datetime`'s representable range:
0001-01-01T00:00:00 UTC. -/
def datetimeMinSec : ℚ := -62135596800

/-- Upper bound (in seconds, exclusive) of `datetime`'s representable
range: 10000-01-01T00:00:00 UTC. -/
def datetimeMaxSec : ℚ := 253402300800

/-- Magnitude (in seconds) within which `utcfromtimestamp` on the
deployment platform (CPython on 64-bit Linux) fails with the catchable
`ValueError` for years outside 1..9999 rather than with a platform
overflow: 2^55 seconds is far below both the `time_t` range and the
`tm_year` overflow point.  Beyond it the source raises an uncaught
`OverflowError`/`OSError`; the exact threshold between the two failure
modes is platform-specific, and no theorem below evaluates near it. -/
def gmtimeSafeSec : ℚ := 36028797018963968

/-- The tail of `format_epoch_to_date` on a finite timestamp `sec` (in
seconds): inside `datetime`'s range the date renders; out of range but
within the safe zone, `utcfromtimestamp` raises a `ValueError` that the
source's `except (ValueError, TypeError)` catches, so `str()` of the
original input is returned; beyond the safe zone the source raises an
uncaught platform overflow error, modelled as `Option.none`. -/
def formatFinite (epoch_value : PyVal) (sec : ℚ) : Option String :=
  if datetimeMinSec ≤ sec ∧ sec < datetimeMaxSec then some (renderUtcDate sec)
  else if -gmtimeSafeSec ≤ sec ∧ sec ≤ gmtimeSafeSec then some (pyStr epoch_value)
  else Option.none

/-- Model of `format_epoch_to_date` from `latest.py`, with `Option.none`
modelling an uncaught exception escaping the function: convert the input
with `float()` — a `ValueError`/`TypeError` there is caught and `str()`
of the input returned; treat finite values strictly above 10,000,000,000
as milliseconds (dividing by 1000) and the rest as seconds, deferring to
`formatFinite`; `utcfromtimestamp(nan)` raises a caught `ValueError` (so
NaN passes through as its string form), while an infinite timestamp
raises an uncaught `OverflowError`. -/
def format_epoch_to_date (epoch_value : PyVal) : Option String :=
  match pyFloat epoch_value with
  | Option.none => some (pyStr epoch_value)
  | some FloatVal.nan => some (pyStr epoch_value)
  | some (FloatVal.inf _) => Option.none
  | some (FloatVal.finite ts) =>
    if 10000000000 < ts then formatFinite epoch_value (ts / 1000)
    else formatFinite epoch_value ts

/-- Model of the total-hit normalization inlined in `search_opensearch`
(`latest.py` lines 146-148): a dict is replaced by its `"value"` entry,
defaulting to `0`; any other shape (notably a bare integer) is kept. -/
def normalizeTotalHits (total_hits : PyVal) : PyVal :=
  match total_hits with
  | PyVal.dict d => (List.lookup "value" d).getD (PyVal.int 0)
  | v => v

/-- Insert a string into an already sorted list, preserving order. -/
def insertSorted (x : String) : List String → List String
  | [] => [x]
  | y :: ys => if x ≤ y then x :: y :: ys else y :: insertSorted x ys

/-- Model of Python `sorted` on strings (code-point lexicographic order,
which is Lean's `LinearOrder String`); insertion sort. -/
def sortStrings (l : List String) : List String :=
  l.foldr insertSorted []

/-- Keys of the flattened form of one record, in insertion order
(`flatten_dict(record).keys()`). -/
def flattenedKeys (r : List (String × PyVal)) : List String :=
  (flatten_dict r "").map Prod.fst

/-- Model of the fieldname computation in `export_csv` (`latest.py`):
the union of the flattened keys of all records (a Python `set`, modelled
as a deduplicated list, which `sorted` maps to the same output), sorted. -/
def exportFieldnames (records : List (List (String × PyVal))) : List String :=
  sortStrings ((records.map flattenedKeys).flatten.dedup)

/-- Model of the cell `csv.DictWriter` emits for key `k` of record `r`:
the `str()` of the looked-up flattened value, the empty string for a
missing key (`restval` default) and for Python `None` (the csv module
writes `None` as an empty field). -/
def csvCell (r : List (String × PyVal)) (k : String) : String :=
  match List.lookup k (flatten_dict r "") with
  | some PyVal.none => ""
  | some v => pyStr v
  | Option.none => ""

/-- Model of the CSV body built by `export_csv` for a non-empty result
list: the header row of sorted fieldnames followed by one row per record
(cell-level model; csv quoting of separators is not modelled). -/
def exportCsvRows (records : List (List (String × PyVal))) : List (List String) :=
  let fns := exportFieldnames records
  fns :: records.map (fun r => fns.map (csvCell r))

/-- The three domain exceptions of `exceptions.py`. -/
inductive OpenSearchError where
  | connectionError (msg : String)
  | authError (msg : String)
  | queryError (msg : String)
deriving DecidableEq

/-- The state held by a constructed `BasicAuthProvider` (`auth.py`). -/
structure BasicAuthProvider where
  username : String
  password : String
deriving DecidableEq

/-- Model of `BasicAuthProvider.__init__` (`auth.py`): `not username or
not password` is true for a Python `str` exactly when it is empty, so an
empty username or password raises `OpenSearchAuthError`; otherwise both
are stored. -/
def BasicAuthProvider.init (username password : String) :
    Except OpenSearchError BasicAuthProvider :=
  if username = "" ∨ password = "" then
    Except.error (OpenSearchError.authError "Username and password are required")
  else Except.ok { username := username, password := password }

/-- Model of `BasicAuthProvider.get_auth` (`auth.py`). -/
def BasicAuthProvider.get_auth (a : BasicAuthProvider) : String × String :=
  (a.username, a.password)

/-- The characters of the literal regex alternative `http://`. -/
def httpPre : List Char := ['h', 't', 't', 'p', ':', '/', '/']

/-- The characters of the literal regex alternative `https://`. -/
def httpsPre : List Char := ['h', 't', 't', 'p', 's', ':', '/', '/']

/-- The characters of the `:443` suffix removed by `validate_endpoint`. -/
def portSuf : List Char := [':', '4', '4', '3']

/-- Model of `re.sub(r"^https?://", "", endpoint)`: the anchored pattern
matches at most once, greedily preferring the longer `https://`
alternative, and is removed. -/
def stripScheme (l : List Char) : List Char :=
  if httpsPre.isPrefixOf l then l.drop 8
  else if httpPre.isPrefixOf l then l.drop 7
  else l

/-- Model of `endpoint.rstrip("/")`: remove every trailing slash. -/
def rstripSlash (l : List Char) : List Char :=
  (l.reverse.dropWhile (fun c => c == '/')).reverse

/-- Model of `re.sub(r":443$", "", endpoint)`: remove one `:443` suffix. -/
def stripPort443 (l : List Char) : List Char :=
  if ['3', '4', '4', ':'].isPrefixOf l.reverse then (l.reverse.drop 4).reverse else l

/-- Model of `validate_endpoint` from `utils.py`: strip an optional
scheme, then all trailing slashes, then an optional `:443` suffix, in
that order.  Total; never raises. -/
def validate_endpoint (endpoint : String) : String :=
  String.mk (stripPort443 (rstripSlash (stripScheme endpoint.data)))

/-- The state held by a constructed `OpenSearchClient` (`client.py`)
that the claims observe. -/
structure ClientState where
  endpoint : String
  username : String
  http_auth : String × String
deriving DecidableEq

/-- Model of `OpenSearchClient.__init__` (`client.py`): normalize the
endpoint, construct the `BasicAuthProvider` (whose `OpenSearchAuthError`
propagates untranslated), and only then attempt the underlying
`OpenSearch(**config)` construction — an external call modelled by the
`connect` oracle — whose failure alone is wrapped into
`OpenSearchConnectionError`. -/
def OpenSearchClient.init (endpoint username password : String)
    (connect : Except String Unit) : Except OpenSearchError ClientState :=
  let ep := validate_endpoint endpoint
  match BasicAuthProvider.init username password with
  | Except.error e => Except.error e
  | Except.ok auth_provider =>
    match connect with
    | Except.error msg =>
        Except.error (OpenSearchError.connectionError
          ("Failed to initialize OpenSearch client: " ++ msg))
    | Except.ok _ =>
        Except.ok { endpoint := ep, username := username,
                    http_auth := auth_provider.get_auth }

/-- Spec-side definition (from the specification's words, for comparison
with the code): a string "of the form YYYY-MM-DD", i.e. exactly four
digits, dash, two digits, dash, two digits, denoting a valid calendar
date. -/
def specStrictYMD (s : String) : Bool :=
  match s.data with
  | [y1, y2, y3, y4, '-', m1, m2, '-', d1, d2] =>
    if y1.isDigit ∧ y2.isDigit ∧ y3.isDigit ∧ y4.isDigit ∧ m1.isDigit ∧ m2.isDigit
        ∧ d1.isDigit ∧ d2.isDigit then
      let y := natOfDigits [y1, y2, y3, y4]
      let m := natOfDigits [m1, m2]
      let d := natOfDigits [d1, d2]
      decide (1 ≤ y ∧ 1 ≤ m ∧ m ≤ 12 ∧ 1 ≤ d ∧ d ≤ daysInMonth y m)
    else false
  | _ => false

/-- The scheme alternatives of the endpoint validator's regex: the empty
one (no scheme), `http://` and `https://`. -/
def schemeStrs : List (List Char) := [[], httpPre, httpsPre]

/-- The suffix combinations a bare hostname may carry per the
specification: nothing, an explicit `:443` port, a trailing slash, or
both. -/
def tailStrs : List (List Char) := [[], portSuf, ['/'], portSuf ++ ['/']]

/-- Spec-side definition: a bare hostname contains neither a slash nor a
colon. -/
def bareHostB (h : List Char) : Bool :=
  h.all (fun c => decide (c ≠ '/' ∧ c ≠ ':'))

/-- Remove an expected leading segment, or fail. -/
def chopFront (p l : List Char) : Option (List Char) :=
  if p.isPrefixOf l then some (l.drop p.length) else Option.none

/-- Remove an expected trailing segment, or fail. -/
def chopBack (t l : List Char) : Option (List Char) :=
  match chopFront t.reverse l.reverse with
  | some m => some m.reverse
  | Option.none => Option.none

/-- Spec-side definition (from the specification's words, for comparison
with the code): a string is a "variation" when it is some bare hostname
carrying any combination of an `http(s)://` scheme, an explicit `:443`
port and a trailing slash. -/
def specVariationB (s : List Char) : Bool :=
  schemeStrs.any (fun sc => tailStrs.any (fun t =>
    match chopFront sc s with
    | some m1 =>
      (match chopBack t m1 with
       | some h2 => bareHostB h2
       | Option.none => false)
    | Option.none => false))

/-- Bounds extracted from a successful parse: `strptime` only produces
positive years, months 1..12 and days valid for the month. -/
theorem parseYMD_bounds {s : String} {y m d : Nat} (h : parseYMD s = some (y, m, d)) :
    1 ≤ y ∧ 1 ≤ m ∧ m ≤ 12 ∧ 1 ≤ d ∧ d ≤ daysInMonth y m := by
  unfold parseYMD at h
  split at h
  all_goals try exact Option.noConfusion h
  split at h
  all_goals try exact Option.noConfusion h
  split at h
  all_goals try exact Option.noConfusion h
  split_ifs at h with hlen hval
  simp only [Option.some.injEq, Prod.mk.injEq] at h
  obtain ⟨hy, hm, hd⟩ := h
  subst hy; subst hm; subst hd
  exact hval

/-- Dates of year 1970 or later lie on or after the epoch. -/
theorem epochDays_nonneg {y m d : Nat} (hy : 1970 ≤ y) (_hm1 : 1 ≤ m) (_hm2 : m ≤ 12)
    (_hd : 1 ≤ d) : 0 ≤ epochDays y m d := by
  have hB : 719162 ≤ 365 * (y - 1) + (y - 1) / 4 - (y - 1) / 100 + (y - 1) / 400
      + daysBeforeMonth y m + (d - 1) := by
    set u := y - 1 with hu
    have hu1969 : 1969 ≤ u := by omega
    rcases Nat.lt_or_ge u 2000 with hcase | hcase
    · have h4 : 492 ≤ u / 4 := (Nat.le_div_iff_mul_le (by norm_num)).mpr (by omega)
      have h100 : u / 100 < 20 := (Nat.div_lt_iff_lt_mul (by norm_num)).mpr (by omega)
      have h400 : 4 ≤ u / 400 := (Nat.le_div_iff_mul_le (by norm_num)).mpr (by omega)
      generalize u / 4 = a4 at h4 ⊢
      generalize u / 100 = a100 at h100 ⊢
      generalize u / 400 = a400 at h400 ⊢
      omega
    · have h100 : u / 100 ≤ u := Nat.div_le_self _ _
      generalize u / 4 = a4
      generalize u / 100 = a100 at h100 ⊢
      generalize u / 400 = a400
      omega
  simp only [epochDays]
  omega

/-- C2 (amended): for well-formed date pairs with years between 1970 and
2200 the lower bound is the start-of-day epoch millisecond value and the
upper bound is that value plus 86,399,999 ms (23:59:59.999); the pair
("2024-01-01", "2024-01-01") yields [1704067200000, 1704153599999].
(Before 1970 the `int()` truncation toward zero deviates — see the
counterexample — and far beyond 2200 double rounding in the source is no
longer exactly modelled.) -/
theorem claim_C2 :
    (∀ (s : String) (y m d : Nat), parseYMD s = some (y, m, d) →
        1970 ≤ y → y ≤ 2200 →
        convert_date_to_epoch_start s = Except.ok (epochDays y m d * 86400000) ∧
        convert_date_to_epoch_end s =
          Except.ok (epochDays y m d * 86400000 + 86399999))
    ∧ convert_date_to_epoch_start "2024-01-01" = Except.ok 1704067200000
    ∧ convert_date_to_epoch_end "2024-01-01" = Except.ok 1704153599999 := by
  refine ⟨fun s y m d h hy _ => ⟨?_, ?_⟩, rfl, rfl⟩
  · simp [convert_date_to_epoch_start, h]
  · obtain ⟨_, hm1, hm2, hd1, _⟩ := parseYMD_bounds h
    have hE := epochDays_nonneg hy hm1 hm2 hd1
    simp only [convert_date_to_epoch_end, h]
    congr 1
    rw [Int.tdiv_eq_ediv (by omega) (by omega)]
    omega

/-- Counterexample to C2 as stated: for the well-formed date
"1969-12-31" the code computes an upper bound of 0, while anchoring to
23:59:59.999 UTC of that day and converting to epoch milliseconds gives
-1 (the day is one day before the epoch); `int()` truncates toward zero
for the negative sub-millisecond value. -/
theorem claim_C2_cex :
    convert_date_to_epoch_end "1969-12-31" = Except.ok 0
    ∧ epochDays 1969 12 31 = -1
    ∧ epochDays 1969 12 31 * 86400000 + 86399999 = -1
    ∧ (0 : Int) ≠ -1 := by
  refine ⟨rfl, rfl, rfl, by decide⟩

/-- Witness for C2 at the concrete pair from the specification. -/
theorem claim_C2_witness :
    convert_date_to_epoch_start "2024-01-01" =
      Except.ok (epochDays 2024 1 1 * 86400000)
    ∧ convert_date_to_epoch_end "2024-01-01" =
      Except.ok (epochDays 2024 1 1 * 86400000 + 86399999) :=
  claim_C2.1 "2024-01-01" 2024 1 1 rfl (by decide) (by decide)

/-- C1 (amended): the query builder always emits exactly the three match
clauses (region, business area, data source — the data-source clause is
appended even when the value is blank), plus the one range clause built
from the converted date bounds, with pagination offset
`(page - 1) * page_size`; page 3 with page size 50 gives offset 100. -/
theorem claim_C1 :
    (∀ (params : SearchParams) (q : OSQuery),
        build_opensearch_query params = Except.ok q →
        (∃ lo hi : Int,
            convert_date_to_epoch_start params.trade_date_from = Except.ok lo ∧
            convert_date_to_epoch_end params.trade_date_to = Except.ok hi ∧
            q.must = [Clause.matchClause "region" params.region,
                      Clause.matchClause "business_area" params.business_area,
                      Clause.matchClause "data_source" params.data_source,
                      Clause.rangeClause "tradeDate" lo hi])
        ∧ q.from_ = (params.page - 1) * params.page_size
        ∧ q.size = params.page_size)
    ∧ (∀ (params : SearchParams) (q : OSQuery),
        params.page = 3 → params.page_size = 50 →
        build_opensearch_query params = Except.ok q → q.from_ = 100) := by
  have main : ∀ (params : SearchParams) (q : OSQuery),
      build_opensearch_query params = Except.ok q →
      (∃ lo hi : Int,
          convert_date_to_epoch_start params.trade_date_from = Except.ok lo ∧
          convert_date_to_epoch_end params.trade_date_to = Except.ok hi ∧
          q.must = [Clause.matchClause "region" params.region,
                    Clause.matchClause "business_area" params.business_area,
                    Clause.matchClause "data_source" params.data_source,
                    Clause.rangeClause "tradeDate" lo hi])
      ∧ q.from_ = (params.page - 1) * params.page_size
      ∧ q.size = params.page_size := by
    intro params q h
    unfold build_opensearch_query at h
    cases h1 : convert_date_to_epoch_start params.trade_date_from with
    | error e => rw [h1] at h; simp at h
    | ok lo =>
      cases h2 : convert_date_to_epoch_end params.trade_date_to with
      | error e => rw [h1, h2] at h; simp at h
      | ok hi =>
        rw [h1, h2] at h
        have h3 := Except.ok.inj h
        subst h3
        exact ⟨⟨lo, hi, rfl, rfl, rfl⟩, rfl, rfl⟩
  refine ⟨main, fun params q h3 h50 h => ?_⟩
  rw [(main params q h).2.1, h3, h50]
  decide

/-- Counterexample to C1 as stated: with a blank data-source value the
builder still emits a data-source match clause (the code appends it
unconditionally), contradicting "only if the data-source value is
present and non-blank". -/
theorem claim_C1_cex :
    build_opensearch_query
        { region := "A", business_area := "A", data_source := "",
          trade_date_from := "2024-01-01", trade_date_to := "2024-01-01",
          page := 1, page_size := 100 } =
      Except.ok
        { must := [Clause.matchClause "region" "A",
                   Clause.matchClause "business_area" "A",
                   Clause.matchClause "data_source" "",
                   Clause.rangeClause "tradeDate" 1704067200000 1704153599999],
          from_ := 0, size := 100 }
    ∧ Clause.matchClause "data_source" "" ∈
        [Clause.matchClause "region" "A",
         Clause.matchClause "business_area" "A",
         Clause.matchClause "data_source" "",
         Clause.rangeClause "tradeDate" 1704067200000 1704153599999] := by
  constructor
  · rfl
  · decide

/-- Witness for C1 at a concrete parameter set with page 3 and page size
50. -/
theorem claim_C1_witness :
    build_opensearch_query
        { region := "A", business_area := "B", data_source := "C",
          trade_date_from := "2024-01-01", trade_date_to := "2024-01-02",
          page := 3, page_size := 50 } =
      Except.ok
        { must := [Clause.matchClause "region" "A",
                   Clause.matchClause "business_area" "B",
                   Clause.matchClause "data_source" "C",
                   Clause.rangeClause "tradeDate" 1704067200000 1704239999999],
          from_ := 100, size := 50 }
    ∧ OSQuery.from_
        { must := [Clause.matchClause "region" "A",
                   Clause.matchClause "business_area" "B",
                   Clause.matchClause "data_source" "C",
                   Clause.rangeClause "tradeDate" 1704067200000 1704239999999],
          from_ := 100, size := 50 } = 100 :=
  ⟨rfl, claim_C1.2
    { region := "A", business_area := "B", data_source := "C",
      trade_date_from := "2024-01-01", trade_date_to := "2024-01-02",
      page := 3, page_size := 50 } _ rfl rfl rfl⟩

/-- C6: the total-hit extraction in the search handler returns the bare
integer when the response total is an integer, the `"value"` field when
the total is a dict containing it, and `0` when the total is a dict
without a `"value"` field. -/
theorem claim_C6 :
    (∀ n : Int, normalizeTotalHits (PyVal.int n) = PyVal.int n)
    ∧ (∀ (d : List (String × PyVal)) (v : PyVal),
        List.lookup "value" d = some v → normalizeTotalHits (PyVal.dict d) = v)
    ∧ (∀ d : List (String × PyVal),
        List.lookup "value" d = Option.none →
          normalizeTotalHits (PyVal.dict d) = PyVal.int 0) := by
  refine ⟨fun n => rfl, fun d v h => ?_, fun d h => ?_⟩ <;>
    simp [normalizeTotalHits, h]

/-- Witness for C6 at concrete response shapes. -/
theorem claim_C6_witness :
    normalizeTotalHits (PyVal.int 7) = PyVal.int 7
    ∧ normalizeTotalHits (PyVal.dict [("value", PyVal.int 42)]) = PyVal.int 42
    ∧ normalizeTotalHits (PyVal.dict [("relation", PyVal.str "eq")]) = PyVal.int 0 :=
  ⟨claim_C6.1 7, claim_C6.2.1 _ _ rfl, claim_C6.2.2 _ rfl⟩

/-- C7 (amended): every string that CPython's `strptime("%Y-%m-%d")`
pattern rejects (exactly four year digits, a one- or two-digit month
valued 1..12, a day that is a one- or two-digit number or a space
followed by one digit, forming a valid calendar date) fails with HTTP
400 whose message names the input, and every string it accepts converts
to an epoch-millisecond integer.  In particular `"999-01-01"` (three
year digits) fails with 400 while `"2024-01- 1"` (space-padded day)
succeeds. -/
theorem claim_C7 :
    (∀ s : String,
      (parseYMD s = Option.none →
        convert_date_to_epoch_start s =
          Except.error ⟨400, "Invalid date format: " ++ s ++ ". Expected YYYY-MM-DD"⟩ ∧
        convert_date_to_epoch_end s =
          Except.error ⟨400, "Invalid date format: " ++ s ++ ". Expected YYYY-MM-DD"⟩)
      ∧ (∀ y m d : Nat, parseYMD s = some (y, m, d) →
          (∃ n : Int, convert_date_to_epoch_start s = Except.ok n) ∧
          (∃ n : Int, convert_date_to_epoch_end s = Except.ok n)))
    ∧ convert_date_to_epoch_start "999-01-01" =
        Except.error ⟨400, "Invalid date format: " ++ "999-01-01" ++ ". Expected YYYY-MM-DD"⟩
    ∧ convert_date_to_epoch_start "2024-01- 1" = Except.ok 1704067200000 := by
  refine ⟨fun s => ⟨fun h => ?_, fun y m d h => ?_⟩, rfl, rfl⟩
  · constructor <;> simp [convert_date_to_epoch_start, convert_date_to_epoch_end, h]
  · refine ⟨⟨epochDays y m d * 86400000, ?_⟩,
            ⟨Int.tdiv ((epochDays y m d * 86400 + 86399) * 1000000 + 999999) 1000, ?_⟩⟩ <;>
      simp [convert_date_to_epoch_start, convert_date_to_epoch_end, h]

/-- Counterexample to C7 as stated: `"2024-1-1"` is not of the form
YYYY-MM-DD, yet date conversion succeeds on it (`strptime`'s `%m` and
`%d` accept unpadded fields), instead of failing with a 400 error. -/
theorem claim_C7_cex :
    specStrictYMD "2024-1-1" = false
    ∧ convert_date_to_epoch_start "2024-1-1" = Except.ok 1704067200000 := by
  constructor <;> rfl

/-- Witness for C7 at a malformed and a well-formed input. -/
theorem claim_C7_witness :
    (convert_date_to_epoch_start "not-a-date" =
       Except.error ⟨400, "Invalid date format: " ++ "not-a-date" ++ ". Expected YYYY-MM-DD"⟩ ∧
     convert_date_to_epoch_end "not-a-date" =
       Except.error ⟨400, "Invalid date format: " ++ "not-a-date" ++ ". Expected YYYY-MM-DD"⟩)
    ∧ ((∃ n : Int, convert_date_to_epoch_start "2024-01-01" = Except.ok n) ∧
       (∃ n : Int, convert_date_to_epoch_end "2024-01-01" = Except.ok n)) :=
  ⟨(claim_C7.1 "not-a-date").1 rfl, (claim_C7.1 "2024-01-01").2 2024 1 1 rfl⟩

/-- C10: constructing the client with an empty username or password
yields the authentication error regardless of what the underlying
connection attempt would do (so the check precedes any connection and is
outside the connection-error translation), while with non-empty
credentials a failing construction of the underlying client is the one
wrapped into a connection error. -/
theorem claim_C10 :
    (∀ (endpoint username password : String) (connect : Except String Unit),
       username = "" ∨ password = "" →
       OpenSearchClient.init endpoint username password connect =
         Except.error (OpenSearchError.authError "Username and password are required"))
    ∧ (∀ endpoint username password msg : String,
       username ≠ "" → password ≠ "" →
       OpenSearchClient.init endpoint username password (Except.error msg) =
         Except.error (OpenSearchError.connectionError
           ("Failed to initialize OpenSearch client: " ++ msg))) := by
  constructor
  · intro ep u p c h
    unfold OpenSearchClient.init BasicAuthProvider.init
    rw [if_pos h]
  · intro ep u p msg hu hp
    unfold OpenSearchClient.init BasicAuthProvider.init
    rw [if_neg (by simp [hu, hp])]

/-- Witness for C10: an empty username is rejected as an auth error even
when the connection oracle would fail, and a connection failure with
non-empty credentials is a connection error. -/
theorem claim_C10_witness :
    OpenSearchClient.init "example.com" "" "pw" (Except.error "down") =
      Except.error (OpenSearchError.authError "Username and password are required")
    ∧ OpenSearchClient.init "example.com" "admin" "pw" (Except.error "down") =
      Except.error (OpenSearchError.connectionError
        ("Failed to initialize OpenSearch client: " ++ "down")) :=
  ⟨claim_C10.1 "example.com" "" "pw" (Except.error "down") (Or.inl rfl),
   claim_C10.2 "example.com" "admin" "pw" "down" (by decide) (by decide)⟩

/-- Every pair of an upserted dict is the inserted pair or one of the
original entries. -/
theorem mem_upsert {kv : String × PyVal} {k : String} {v : PyVal} :
    ∀ {l : List (String × PyVal)}, kv ∈ upsert k v l → kv = (k, v) ∨ kv ∈ l := by
  intro l
  induction l with
  | nil =>
    intro h
    simp only [upsert, List.mem_singleton] at h
    exact Or.inl h
  | cons p rest ih =>
    intro h
    obtain ⟨k2, v2⟩ := p
    simp only [upsert] at h
    split_ifs at h with he
    · rcases List.mem_cons.mp h with h1 | h1
      · subst he
        exact Or.inl h1
      · exact Or.inr (List.mem_cons_of_mem _ h1)
    · rcases List.mem_cons.mp h with h1 | h1
      · exact Or.inr (h1 ▸ List.mem_cons_self _ _)
      · rcases ih h1 with h2 | h2
        · exact Or.inl h2
        · exact Or.inr (List.mem_cons_of_mem _ h2)

/-- Every pair of `dict(items)` is one of the items (values are taken
from the items, so pair membership is preserved downward). -/
theorem mem_dictOfItems {kv : String × PyVal} {items : List (String × PyVal)}
    (h : kv ∈ dictOfItems items) : kv ∈ items := by
  have aux : ∀ (its acc : List (String × PyVal)),
      kv ∈ its.foldl (fun acc2 p => upsert p.1 p.2 acc2) acc → kv ∈ acc ∨ kv ∈ its := by
    intro its
    induction its with
    | nil => intro acc h2; exact Or.inl h2
    | cons p rest ih =>
      intro acc h2
      rcases ih _ h2 with h3 | h3
      · rcases mem_upsert h3 with h4 | h4
        · right
          rw [h4]
          exact List.mem_cons_self _ _
        · exact Or.inl h4
      · exact Or.inr (List.mem_cons_of_mem _ h3)
  rcases aux items [] h with h2 | h2
  · exact absurd h2 (List.not_mem_nil _)
  · exact h2

/-- Values produced by the flatten loop are never dicts (they are
recursively expanded) and never lists (they are serialized to strings). -/
theorem flatItems_shape :
    ∀ (d : List (String × PyVal)) (parent_key k : String) (v : PyVal),
      (k, v) ∈ flatItems d parent_key →
      (∀ d2, v ≠ PyVal.dict d2) ∧ (∀ l, v ≠ PyVal.list l) := by
  intro d parent_key
  refine flatItems.induct
    (fun d pk => ∀ k v, (k, v) ∈ flatItems d pk →
      (∀ d2, v ≠ PyVal.dict d2) ∧ (∀ l, v ≠ PyVal.list l))
    (fun w nk => ∀ k v, (k, v) ∈ flatVal w nk →
      (∀ d2, v ≠ PyVal.dict d2) ∧ (∀ l, v ≠ PyVal.list l))
    ?_ ?_ ?_ ?_ ?_ d parent_key
  · intro d2 nk ih k v h
    simp only [flatVal] at h
    exact ih k v (mem_dictOfItems h)
  · intro l nk k v h
    simp only [flatVal, List.mem_singleton, Prod.mk.injEq] at h
    rw [h.2]
    exact ⟨fun d2 => by simp, fun l2 => by simp⟩
  · intro x nk hnd hnl k v h
    have hx : flatVal x nk = [(nk, x)] := by
      cases x with
      | dict d2 => exact absurd rfl (hnd d2)
      | list l => exact absurd rfl (hnl l)
      | int n => rfl
      | str s => rfl
      | none => rfl
    rw [hx] at h
    simp only [List.mem_singleton, Prod.mk.injEq] at h
    rw [h.2]
    exact ⟨fun d2 hc => hnd d2 hc, fun l hc => hnl l hc⟩
  · intro pk k v h
    simp [flatItems] at h
  · intro k0 v0 rest pk ih1 ih2 k v h
    simp only [flatItems, List.mem_append] at h
    rcases h with h | h
    · exact ih1 k v h
    · exact ih2 k v h

/-- C5: flatten_dict produces a single-level mapping — nested mappings
become dotted-key entries and list values are serialized to their Python
string representation, so no value in the output is itself a dict or a
list — and flattening the document from the specification gives exactly
the mapping it states. -/
theorem claim_C5 :
    (∀ (d : List (String × PyVal)) (parent_key k : String) (v : PyVal),
        (k, v) ∈ flatten_dict d parent_key →
        (∀ d2, v ≠ PyVal.dict d2) ∧ (∀ l, v ≠ PyVal.list l))
    ∧ flatten_dict [("a", PyVal.dict [("b", PyVal.int 1)]),
          ("c", PyVal.list [PyVal.int 1, PyVal.int 2])] "" =
        [("a.b", PyVal.int 1), ("c", PyVal.str "[1, 2]")] :=
  ⟨fun d pk k v h => flatItems_shape d pk k v (mem_dictOfItems h), rfl⟩

/-- Witness for C5: the entry at the dotted key of the concrete example
is subject to the single-level guarantee. -/
theorem claim_C5_witness :
    (∀ d2, PyVal.int 1 ≠ PyVal.dict d2) ∧ (∀ l, PyVal.int 1 ≠ PyVal.list l) :=
  claim_C5.1 [("a", PyVal.dict [("b", PyVal.int 1)]),
      ("c", PyVal.list [PyVal.int 1, PyVal.int 2])] "" "a.b" (PyVal.int 1)
    (by rw [claim_C5.2]; exact List.mem_cons_self _ _)

/-- C3 (amended): format_epoch_to_date converts its input with float();
finite values strictly above 10,000,000,000 are treated as epoch
milliseconds (divided by 1000) and the rest as epoch seconds; a
timestamp inside datetime's representable range (years 1-9999) renders
as an upper-case DD-MON-YYYY UTC string — 1704067200000 (ms) and
1704067200 (s) both give "01-JAN-2024 UTC" — while an out-of-range
timestamp of moderate magnitude makes utcfromtimestamp raise a
ValueError that the code catches, returning the input's string form;
an infinite timestamp raises an uncaught overflow error; and any input
float() cannot convert is returned as its str() form.  Every rendered
date string ends in " UTC". -/
theorem claim_C3 :
    (∀ (v : PyVal) (q : ℚ), pyFloat v = some (FloatVal.finite q) →
        format_epoch_to_date v =
          (if 10000000000 < q then formatFinite v (q / 1000) else formatFinite v q))
    ∧ (∀ (v : PyVal) (sec : ℚ),
        datetimeMinSec ≤ sec ∧ sec < datetimeMaxSec →
        formatFinite v sec = some (renderUtcDate sec))
    ∧ (∀ (v : PyVal) (sec : ℚ),
        ¬ (datetimeMinSec ≤ sec ∧ sec < datetimeMaxSec) →
        -gmtimeSafeSec ≤ sec ∧ sec ≤ gmtimeSafeSec →
        formatFinite v sec = some (pyStr v))
    ∧ format_epoch_to_date (PyVal.int 1704067200000) = some "01-JAN-2024 UTC"
    ∧ format_epoch_to_date (PyVal.int 1704067200) = some "01-JAN-2024 UTC"
    ∧ (∀ v : PyVal, pyFloat v = Option.none → format_epoch_to_date v = some (pyStr v))
    ∧ (∀ (v : PyVal) (b : Bool), pyFloat v = some (FloatVal.inf b) →
        format_epoch_to_date v = Option.none)
    ∧ (∀ ts : ℚ, List.take 4 ((renderUtcDate ts).data.reverse) = ['C', 'T', 'U', ' ']) := by
  refine ⟨fun v q h => by simp only [format_epoch_to_date, h],
    fun v sec hr => ?_, fun v sec hn hz => ?_, ?_, ?_,
    fun v h => by simp only [format_epoch_to_date, h],
    fun v b h => by simp only [format_epoch_to_date, h],
    fun ts => ?_⟩
  · unfold formatFinite
    rw [if_pos hr]
  · unfold formatFinite
    rw [if_neg hn, if_pos hz]
  · simp only [format_epoch_to_date, pyFloat]
    rw [if_pos (by norm_num)]
    unfold formatFinite
    rw [if_pos (by norm_num [datetimeMinSec, datetimeMaxSec])]
    simp only [renderUtcDate]
    rw [show ((1704067200000 : Int) : ℚ) / 1000 / 86400 = ((19723 : Int) : ℚ) by norm_num]
    rw [Int.floor_intCast]
    rfl
  · simp only [format_epoch_to_date, pyFloat]
    rw [if_neg (by norm_num)]
    unfold formatFinite
    rw [if_pos (by norm_num [datetimeMinSec, datetimeMaxSec])]
    simp only [renderUtcDate]
    rw [show ((1704067200 : Int) : ℚ) / 86400 = ((19723 : Int) : ℚ) by norm_num]
    rw [Int.floor_intCast]
    rfl
  · simp only [renderUtcDate]
    rw [String.data_append, List.reverse_append,
      show (4 : Nat) = (" UTC".data.reverse).length from rfl, List.take_left]
    rfl

/-- Counterexample to C3 as stated: the in-range numeric 300000000000000
(and likewise -100000000000) is not rendered as a date — the
out-of-range year makes utcfromtimestamp raise a ValueError that the
code catches, returning the value's string form, which does not end in
" UTC". -/
theorem claim_C3_cex :
    format_epoch_to_date (PyVal.int 300000000000000) = some "300000000000000"
    ∧ format_epoch_to_date (PyVal.int (-100000000000)) = some "-100000000000"
    ∧ List.take 4 (("300000000000000").data.reverse) ≠ ['C', 'T', 'U', ' '] := by
  refine ⟨?_, ?_, by decide⟩
  · simp only [format_epoch_to_date, pyFloat]
    rw [if_pos (by norm_num)]
    unfold formatFinite
    rw [if_neg (by norm_num [datetimeMinSec, datetimeMaxSec]),
      if_pos (by norm_num [gmtimeSafeSec])]
    rfl
  · simp only [format_epoch_to_date, pyFloat]
    rw [if_neg (by norm_num)]
    unfold formatFinite
    rw [if_neg (by norm_num [datetimeMinSec, datetimeMaxSec]),
      if_pos (by norm_num [gmtimeSafeSec])]
    rfl

/-- Witness for C3 at a millisecond value, an in-range second value, an
out-of-range second value and an unparsable string. -/
theorem claim_C3_witness :
    format_epoch_to_date (PyVal.int 20000000000) =
      (if (10000000000 : ℚ) < ((20000000000 : Int) : ℚ) then
        formatFinite (PyVal.int 20000000000) (((20000000000 : Int) : ℚ) / 1000)
      else formatFinite (PyVal.int 20000000000) ((20000000000 : Int) : ℚ))
    ∧ formatFinite (PyVal.int 20000000) ((20000000 : Int) : ℚ) =
        some (renderUtcDate ((20000000 : Int) : ℚ))
    ∧ formatFinite (PyVal.int 300000000000000) ((300000000000 : Int) : ℚ) =
        some (pyStr (PyVal.int 300000000000000))
    ∧ format_epoch_to_date (PyVal.str "N/A") = some (pyStr (PyVal.str "N/A")) :=
  ⟨claim_C3.1 (PyVal.int 20000000000) ((20000000000 : Int) : ℚ) rfl,
   claim_C3.2.1 (PyVal.int 20000000) ((20000000 : Int) : ℚ)
     (by norm_num [datetimeMinSec, datetimeMaxSec]),
   claim_C3.2.2.1 (PyVal.int 300000000000000) ((300000000000 : Int) : ℚ)
     (by norm_num [datetimeMinSec, datetimeMaxSec]) (by norm_num [gmtimeSafeSec]),
   claim_C3.2.2.2.2.2.1 (PyVal.str "N/A") rfl⟩

/-- Inserting into a sorted list yields a permutation of consing. -/
theorem perm_insertSorted (x : String) :
    ∀ l : List String, List.Perm (insertSorted x l) (x :: l) := by
  intro l
  induction l with
  | nil => exact List.Perm.refl _
  | cons y ys ih =>
    simp only [insertSorted]
    split_ifs
    · exact List.Perm.refl _
    · exact ((ih.cons y).trans (List.Perm.swap x y ys))

/-- `sortStrings` permutes its input. -/
theorem sortStrings_perm : ∀ l : List String, List.Perm (sortStrings l) l := by
  intro l
  induction l with
  | nil => exact List.Perm.refl _
  | cons a l ih => exact (perm_insertSorted a (sortStrings l)).trans (ih.cons a)

/-- Insertion preserves sortedness (strings are linearly ordered by code
points, as in Python). -/
theorem sorted_insertSorted (x : String) :
    ∀ l : List String, l.Sorted (· ≤ ·) → (insertSorted x l).Sorted (· ≤ ·) := by
  intro l
  induction l with
  | nil => intro _; simp [insertSorted]
  | cons y ys ih =>
    intro hs
    rw [List.sorted_cons] at hs
    simp only [insertSorted]
    split_ifs with hxy
    · rw [List.sorted_cons]
      refine ⟨fun b hb => ?_, List.sorted_cons.mpr hs⟩
      rcases List.mem_cons.mp hb with h1 | h1
      · exact h1 ▸ hxy
      · exact le_trans hxy (hs.1 b h1)
    · rw [List.sorted_cons]
      refine ⟨fun b hb => ?_, ih hs.2⟩
      rcases List.mem_cons.mp ((perm_insertSorted x ys).mem_iff.mp hb) with h1 | h1
      · exact h1 ▸ le_of_not_le hxy
      · exact hs.1 b h1

/-- `sortStrings` sorts. -/
theorem sortStrings_sorted : ∀ l : List String, (sortStrings l).Sorted (· ≤ ·) := by
  intro l
  induction l with
  | nil => simp [sortStrings]
  | cons a l ih => exact sorted_insertSorted a (sortStrings l) ih

/-- A key absent from the flattened keys of a dict looks up to nothing. -/
theorem lookup_eq_none_of_not_mem_keys {k : String} :
    ∀ {l : List (String × PyVal)}, k ∉ l.map Prod.fst → List.lookup k l = Option.none := by
  intro l
  induction l with
  | nil => intro _; rfl
  | cons p rest ih =>
    intro h
    obtain ⟨k2, v2⟩ := p
    simp only [List.map_cons, List.mem_cons] at h
    push_neg at h
    simp only [List.lookup]
    rw [show (k == k2) = false from beq_eq_false_iff_ne.mpr h.1]
    exact ih h.2

/-- C4: for every non-empty record list, the CSV header row is the sorted
union of the flattened keys of all records (characterized by membership,
sortedness and freedom from duplicates), it is the first emitted row, and
a record lacking one of the header keys renders that cell as the empty
string. -/
theorem claim_C4 :
    ∀ records : List (List (String × PyVal)), records ≠ [] →
      (∀ k, k ∈ exportFieldnames records ↔ ∃ r ∈ records, k ∈ flattenedKeys r)
      ∧ (exportFieldnames records).Sorted (· ≤ ·)
      ∧ (exportFieldnames records).Nodup
      ∧ (exportCsvRows records).head? = some (exportFieldnames records)
      ∧ (∀ r ∈ records, ∀ k ∈ exportFieldnames records,
           k ∉ flattenedKeys r → csvCell r k = "") := by
  intro records _
  refine ⟨fun k => ?_, sortStrings_sorted _, ?_, rfl, fun r _ k _ hk => ?_⟩
  · unfold exportFieldnames
    rw [(sortStrings_perm _).mem_iff, List.mem_dedup, List.mem_flatten]
    constructor
    · rintro ⟨l, hl, hkl⟩
      obtain ⟨r, hr, rfl⟩ := List.mem_map.mp hl
      exact ⟨r, hr, hkl⟩
    · rintro ⟨r, hr, hkr⟩
      exact ⟨flattenedKeys r, List.mem_map_of_mem _ hr, hkr⟩
  · exact ((sortStrings_perm _).nodup_iff).mpr (List.nodup_dedup _)
  · unfold csvCell
    rw [lookup_eq_none_of_not_mem_keys hk]

/-- Witness for C4 at a two-record result set where the second record
lacks the key "a.x" contributed by the first. -/
theorem claim_C4_witness :
    (("a.x" ∈ exportFieldnames
        [[("b", PyVal.int 1), ("a", PyVal.dict [("x", PyVal.int 2)])],
         [("b", PyVal.none)]]))
    ∧ csvCell [("b", PyVal.none)] "a.x" = "" := by
  have h := claim_C4
    [[("b", PyVal.int 1), ("a", PyVal.dict [("x", PyVal.int 2)])], [("b", PyVal.none)]]
    (List.cons_ne_nil _ _)
  have hmem : ("a.x" : String) ∈ exportFieldnames
      [[("b", PyVal.int 1), ("a", PyVal.dict [("x", PyVal.int 2)])], [("b", PyVal.none)]] :=
    (h.1 "a.x").mpr ⟨[("b", PyVal.int 1), ("a", PyVal.dict [("x", PyVal.int 2)])],
      List.mem_cons_self _ _, by decide⟩
  exact ⟨hmem, h.2.2.2.2 [("b", PyVal.none)]
    (List.mem_cons_of_mem _ (List.mem_cons_self _ _)) "a.x" hmem (by decide)⟩

/-- Two consecutive lookups in a list always form an entry of
`zip l l.tail`. -/
theorem zip_tail_of_consecutive :
    ∀ (t : List Char) (p : Nat) (a b : Char),
      t[p]? = some a → t[p + 1]? = some b → (a, b) ∈ t.zip t.tail := by
  intro t
  induction t with
  | nil => intro p a b h1 _; simp at h1
  | cons c t2 ih =>
    intro p a b h1 h2
    cases p with
    | zero =>
      simp only [List.getElem?_cons_zero, Option.some.injEq] at h1
      cases t2 with
      | nil => simp at h2
      | cons d t3 =>
        simp only [List.getElem?_cons_succ, List.getElem?_cons_zero,
          Option.some.injEq] at h2
        subst h1
        subst h2
        exact List.mem_cons_self _ _
    | succ p2 =>
      simp only [List.getElem?_cons_succ] at h1 h2
      have hm := ih p2 a b h1 h2
      cases t2 with
      | nil => simp at h1
      | cons d t3 => exact List.mem_cons_of_mem _ hm

/-- If a bare host (no slash, no colon) followed by one of the cleaning
tails matched a scheme pattern, the pattern's `:/` pair would have to sit
inside the host or inside the tail — impossible for both. -/
theorem no_scheme_match (h t pre r : List Char) (i : Nat)
    (hb : ∀ c ∈ h, c ≠ '/' ∧ c ≠ ':')
    (hz : (':', '/') ∉ t.zip t.tail)
    (hil : i < pre.length) (hil2 : i + 1 < pre.length)
    (hc : pre[i]? = some ':') (hs : pre[i + 1]? = some '/')
    (heq : pre ++ r = h ++ t) : False := by
  have e1 : (h ++ t)[i]? = some ':' := by
    rw [← heq, List.getElem?_append, if_pos hil]
    exact hc
  have e2 : (h ++ t)[i + 1]? = some '/' := by
    rw [← heq, List.getElem?_append, if_pos hil2]
    exact hs
  rcases Nat.lt_or_ge i h.length with hlt | hge
  · rw [List.getElem?_append, if_pos hlt] at e1
    have hmem : ':' ∈ h := List.getElem?_mem e1
    exact (hb _ hmem).2 rfl
  · rw [List.getElem?_append, if_neg (not_lt.mpr hge)] at e1
    have hge2 : h.length ≤ i + 1 := le_trans hge (Nat.le_succ i)
    rw [List.getElem?_append, if_neg (not_lt.mpr hge2)] at e2
    rw [show i + 1 - h.length = (i - h.length) + 1 by omega] at e2
    exact hz (zip_tail_of_consecutive t _ _ _ e1 e2)

/-- The anchored regex removes exactly the `https://` characters. -/
theorem stripScheme_https (r : List Char) : stripScheme (httpsPre ++ r) = r := by
  unfold stripScheme
  rw [if_pos (List.isPrefixOf_iff_prefix.mpr ⟨r, rfl⟩),
    show (8 : Nat) = httpsPre.length from rfl]
  exact List.drop_left httpsPre r

/-- The anchored regex removes exactly the `http://` characters. -/
theorem stripScheme_http (r : List Char) : stripScheme (httpPre ++ r) = r := by
  unfold stripScheme
  have hneg : ¬ (httpsPre.isPrefixOf (httpPre ++ r) = true) := by
    intro hpre
    obtain ⟨r2, hr2⟩ := List.isPrefixOf_iff_prefix.mp hpre
    have hchar := congrArg (fun l => l[4]?) hr2
    simp [httpsPre, httpPre] at hchar
  rw [if_neg hneg, if_pos (List.isPrefixOf_iff_prefix.mpr ⟨r, rfl⟩),
    show (7 : Nat) = httpPre.length from rfl]
  exact List.drop_left httpPre r

/-- A bare host followed by a cleaning tail never starts with a scheme,
so the regex substitution leaves it unchanged. -/
theorem stripScheme_fix (h t : List Char) (hb : ∀ c ∈ h, c ≠ '/' ∧ c ≠ ':')
    (hz : (':', '/') ∉ t.zip t.tail) : stripScheme (h ++ t) = h ++ t := by
  unfold stripScheme
  have h1 : ¬ (httpsPre.isPrefixOf (h ++ t) = true) := by
    intro hpre
    obtain ⟨r, hr⟩ := List.isPrefixOf_iff_prefix.mp hpre
    exact no_scheme_match h t httpsPre r 5 hb hz (by decide) (by decide) rfl rfl hr
  have h2 : ¬ (httpPre.isPrefixOf (h ++ t) = true) := by
    intro hpre
    obtain ⟨r, hr⟩ := List.isPrefixOf_iff_prefix.mp hpre
    exact no_scheme_match h t httpPre r 4 hb hz (by decide) (by decide) rfl rfl hr
  rw [if_neg h1, if_neg h2]

/-- `rstrip` removes a trailing slash and continues on the rest. -/
theorem rstripSlash_append_slash (x : List Char) :
    rstripSlash (x ++ ['/']) = rstripSlash x := by
  unfold rstripSlash
  rw [List.reverse_append]
  simp [List.dropWhile_cons]

/-- `rstrip` does not touch a string with a slash-free non-empty tail. -/
theorem rstripSlash_no_slash_suffix (x t : List Char) (ht : t ≠ [])
    (h2 : ∀ c ∈ t, c ≠ '/') : rstripSlash (x ++ t) = x ++ t := by
  have hrev : t.reverse ≠ [] := fun hh => ht (by simpa using congrArg List.reverse hh)
  obtain ⟨c, r, hcr⟩ := List.exists_cons_of_ne_nil hrev
  have hcm : c ∈ t := by
    rw [← List.mem_reverse, hcr]
    exact List.mem_cons_self _ _
  have hne : (c == '/') = false := beq_eq_false_iff_ne.mpr (h2 c hcm)
  unfold rstripSlash
  rw [List.reverse_append, hcr]
  simp only [List.cons_append, List.dropWhile_cons, hne, Bool.false_eq_true, if_false]
  rw [show c :: (r ++ x.reverse) = (c :: r) ++ x.reverse from rfl, ← hcr,
    ← List.reverse_append, List.reverse_reverse]

/-- `rstrip` leaves a slash-free string unchanged. -/
theorem rstripSlash_bare (h : List Char) (hb : ∀ c ∈ h, c ≠ '/') :
    rstripSlash h = h := by
  cases hn : h with
  | nil => rfl
  | cons a l =>
    rw [← hn]
    have hx := rstripSlash_no_slash_suffix [] h
      (by rw [hn]; exact List.cons_ne_nil _ _) hb
    simpa using hx

/-- The `:443$` substitution removes exactly a `:443` suffix. -/
theorem stripPort443_append (x : List Char) : stripPort443 (x ++ portSuf) = x := by
  unfold stripPort443
  have hrev : (x ++ portSuf).reverse = ['3', '4', '4', ':'] ++ x.reverse := by
    rw [List.reverse_append]
    rfl
  rw [hrev, if_pos (List.isPrefixOf_iff_prefix.mpr ⟨x.reverse, rfl⟩),
    show (4 : Nat) = (['3', '4', '4', ':'] : List Char).length from rfl,
    List.drop_left]
  exact List.reverse_reverse x

/-- The `:443$` substitution leaves a colon-free string unchanged. -/
theorem stripPort443_no_colon (l : List Char) (hc : ':' ∉ l) : stripPort443 l = l := by
  unfold stripPort443
  rw [if_neg]
  intro hpre
  obtain ⟨r, hr⟩ := List.isPrefixOf_iff_prefix.mp hpre
  have hmem : ':' ∈ l.reverse := by
    rw [← hr]
    exact List.mem_append_left _ (by decide)
  exact hc (List.mem_reverse.mp hmem)

/-- After the scheme is gone, stripping slashes then the port maps a bare
host with any specification tail back to the bare host. -/
theorem cleanChain (h : List Char) (hb : ∀ c ∈ h, c ≠ '/' ∧ c ≠ ':') :
    ∀ t ∈ tailStrs, stripPort443 (rstripSlash (h ++ t)) = h := by
  have hb1 : ∀ c ∈ h, c ≠ '/' := fun c hc => (hb c hc).1
  have hb2 : ':' ∉ h := fun hc => (hb _ hc).2 rfl
  intro t ht
  simp only [tailStrs, List.mem_cons, List.mem_singleton, List.not_mem_nil,
    or_false] at ht
  rcases ht with rfl | rfl | rfl | rfl
  · rw [List.append_nil, rstripSlash_bare h hb1, stripPort443_no_colon h hb2]
  · rw [rstripSlash_no_slash_suffix h portSuf (by decide) (by decide),
      stripPort443_append]
  · rw [rstripSlash_append_slash, rstripSlash_bare h hb1, stripPort443_no_colon h hb2]
  · rw [show h ++ (portSuf ++ ['/']) = (h ++ portSuf) ++ ['/'] from
        (List.append_assoc _ _ _).symm,
      rstripSlash_append_slash,
      rstripSlash_no_slash_suffix h portSuf (by decide) (by decide),
      stripPort443_append]

/-- C9 (amended): every variation of a bare hostname (no slash or colon
characters) carrying any combination of an `http://` or `https://`
scheme, an explicit `:443` port and a trailing slash normalizes to the
bare hostname, and the validator never fails (it is a total function);
an input that carries no scheme prefix, no trailing slash and no
trailing `:443` passes through unchanged, but inputs outside the
variation set can still be rewritten (see the counterexample). -/
theorem claim_C9 :
    (∀ h : List Char, (∀ c ∈ h, c ≠ '/' ∧ c ≠ ':') →
        ∀ sc ∈ schemeStrs, ∀ t ∈ tailStrs,
          validate_endpoint (String.mk (sc ++ h ++ t)) = String.mk h)
    ∧ (∀ s : String, stripScheme s.data = s.data → rstripSlash s.data = s.data →
        stripPort443 s.data = s.data → validate_endpoint s = s) := by
  constructor
  · intro h hb sc hsc t ht
    have hz : (':', '/') ∉ t.zip t.tail := by
      simp only [tailStrs, List.mem_cons, List.mem_singleton, List.not_mem_nil,
        or_false] at ht
      rcases ht with rfl | rfl | rfl | rfl <;> decide
    show String.mk (stripPort443 (rstripSlash (stripScheme (sc ++ h ++ t)))) =
      String.mk h
    simp only [schemeStrs, List.mem_cons, List.mem_singleton, List.not_mem_nil,
      or_false] at hsc
    rcases hsc with rfl | rfl | rfl
    · rw [List.nil_append, stripScheme_fix h t hb hz, cleanChain h hb t ht]
    · rw [List.append_assoc, stripScheme_http, cleanChain h hb t ht]
    · rw [List.append_assoc, stripScheme_https, cleanChain h hb t ht]
  · intro s h1 h2 h3
    show String.mk (stripPort443 (rstripSlash (stripScheme s.data))) = s
    rw [h1, h2, h3]

/-- Counterexample to C9 as stated: `http://http://x` is not a variation
of any bare hostname, yet the validator rewrites it to `http://x` instead
of passing it through unchanged. -/
theorem claim_C9_cex :
    specVariationB ("http://http://x".data) = false
    ∧ validate_endpoint "http://http://x" ≠ "http://http://x"
    ∧ validate_endpoint "http://http://x" = "http://x" :=
  ⟨by decide, by decide, by decide⟩

/-- Witness for C9 at a concrete host with scheme and port, and at a
fixed-point input. -/
theorem claim_C9_witness :
    validate_endpoint (String.mk (httpsPre ++ ("example.com").data ++ portSuf)) =
      String.mk (("example.com").data)
    ∧ validate_endpoint "host:9200" = "host:9200" :=
  ⟨claim_C9.1 ("example.com").data (by decide) httpsPre (by decide) portSuf (by decide),
   claim_C9.2 "host:9200" rfl rfl rfl⟩

end OSConn
